import Mathlib

/-!
# Verification of the `geojson_tiles` GeoJSON serializer

A shallow embedding of `src/geojson_tiles/serializers.py` (class
`GeoJSONSerializer`, a subclass of Django's `PythonSerializer` whose
`serialize` loop is overridden in this file's source).  Python dictionaries
are modelled as association lists with insertion-order semantics; Python
exceptions are modelled with `Except`; the external collaborators (the GEOS
geometry library and the `simplejson` text codec) are modelled at their
interface: a GEOS geometry is identified with its GeoJSON projection, and
the JSON text parser is a parameter of the embedding.
-/

set_option autoImplicit false

namespace GeoJSONTiles

/-- JSON values, the scalar/structured data that flows through the
serializer.  Numbers are modelled as integers (floating-point formatting is
delegated to the external encoder and is outside this development). -/
inductive JValue where
  | null : JValue
  | bool : Bool → JValue
  | int : Int → JValue
  | str : String → JValue
  | arr : List JValue → JValue
  | obj : List (String × JValue) → JValue

/-- Model of a GEOS geometry object (`django.contrib.gis.geos.GEOSGeometry`).
The external library exposes the standard GeoJSON projection of the geometry
through its `geojson` attribute (a JSON text that `json.loads` turns into a
structure); the embedding identifies the geometry with that parsed
projection. -/
structure GEOSGeometry where
  geojson : JValue

/-- Python exceptions that the serializer code can raise. -/
inductive PyErr where
  | valueError : String → PyErr
  | keyError : String → PyErr
  | attributeError : String → PyErr
  | typeError : String → PyErr
  | indexError : String → PyErr
deriving Repr

/-- The value of one model field on one record, as seen by `handle_field`:
a protected scalar (`is_protected_type` holds), a GEOS geometry object, or
some other object whose `value_to_string` rendering is the given string. -/
inductive FieldVal where
  | prim : JValue → FieldVal
  | geom : GEOSGeometry → FieldVal
  | blob : String → FieldVal

/-- An input record (a model instance): its primary-key value (`obj.pk`)
and its non-relational local fields in declared order, as
(name, value) pairs.  Relational (foreign-key / many-to-many) fields are
not exercised by any claim and are not modelled. -/
structure Record where
  pkValue : JValue
  fields : List (String × FieldVal)

/-- Model metadata (`queryset.model._meta`): the primary-key field name and
the declared geometry fields, each with its SRID, in declaration order. -/
structure ModelMeta where
  pkName : String
  geometryFields : List (String × Int)

/-- A value stored in the caller's `options` dictionary. -/
inductive OptValue where
  | boolV : Bool → OptValue
  | strV : String → OptValue
  | intV : Int → OptValue
  | listV : List String → OptValue
  | dictV : List (String × String) → OptValue
  | bboxV : List (List JValue) → OptValue
  | streamV : String → OptValue
  | otherV : String → OptValue

/-- The caller's keyword-options dictionary. -/
abbrev Options := List (String × OptValue)

/-- The in-memory document tree built by the serializer before encoding:
JSON scalars, GEOS geometry objects (converted only by the encoder at dump
time), nested lists and dicts, and unconvertible objects (`blob`). -/
inductive PyObj where
  | jval : JValue → PyObj
  | geos : GEOSGeometry → PyObj
  | blob : String → PyObj
  | list : List PyObj → PyObj
  | dict : List (String × PyObj) → PyObj

/-- A Python dict with `PyObj` values, as an insertion-ordered
association list. -/
abbrev PyDict := List (String × PyObj)

/-- Dictionary lookup (`d[k]` / `d.get(k)`): first entry with the key. -/
def dictGet {α : Type} (d : List (String × α)) (k : String) : Option α :=
  (d.find? (fun p => p.1 == k)).map (fun p => p.2)

/-- Dictionary assignment (`d[k] = v`): replace the entry in place if the
key is present, else append a new entry. -/
def dictSet {α : Type} : List (String × α) → String → α → List (String × α)
  | [], k, v => [(k, v)]
  | (k0, v0) :: d, k, v =>
    if k0 == k then (k, v) :: d else (k0, v0) :: dictSet d k v

/-- Dictionary removal (`d.pop(k, default)`): the popped value, if any,
and the dictionary without that key. -/
def optPop (d : Options) (k : String) : Option OptValue × Options :=
  (dictGet d k, d.filter (fun p => p.1 != k))

/-- A sequence of `d.pop(k, None)` calls. -/
def popMany (d : Options) : List String → Options
  | [] => d
  | k :: ks => popMany (optPop d k).2 ks

/-- Python truthiness of an option value (`if bbox:` and the like). -/
def pyTruthy : OptValue → Bool
  | .boolV b => b
  | .strV s => s != ""
  | .intV n => n != 0
  | .listV l => !l.isEmpty
  | .dictV m => !m.isEmpty
  | .bboxV b => !b.isEmpty
  | .streamV _ => true
  | .otherV _ => true

/-- Python `x == False` on an option value (`0 == False` holds in Python). -/
def pyEqFalse : OptValue → Bool
  | .boolV b => !b
  | .intV n => n == 0
  | _ => false

/-- Effectful map over a list in the `Except` monad, stopping at the first
raised error — the shape of the `for obj in queryset:` loop, each iteration
of which may raise. -/
def mapExcept {ε α β : Type} (f : α → Except ε β) : List α → Except ε (List β)
  | [] => .ok []
  | x :: xs =>
    match f x with
    | .error e => .error e
    | .ok y =>
      match mapExcept f xs with
      | .error e => .error e
      | .ok ys => .ok (y :: ys)

/-- The external collaborators of the serializer, at their interface: the
JSON text parser (`json.loads` of Django's bundled `simplejson`), which
either parses a string into a structure or raises `ValueError`. -/
structure ExternalEnv where
  json_loads : String → Except String JValue

/-- Escaping of one character inside a JSON string literal (the fragment of
the external encoder's escaping that the modelled values exercise). -/
def escChar (c : Char) : String :=
  if c = '"' then "\\\"" else if c = '\\' then "\\\\" else String.singleton c

/-- Escaping of a JSON string literal body. -/
def escapeJson (s : String) : String :=
  String.join (s.toList.map escChar)

mutual

/-- Model of the external JSON text encoder (`json.dump`) on already
encoder-converted values, with `simplejson`'s default separators. -/
def json_dump : JValue → String
  | .null => "null"
  | .bool b => if b then "true" else "false"
  | .int n => toString n
  | .str s => "\"" ++ escapeJson s ++ "\""
  | .arr xs => "[" ++ dumpArr xs ++ "]"
  | .obj kvs => "\x7b" ++ dumpEntries kvs ++ "\x7d"

/-- Comma-separated dump of array elements. -/
def dumpArr : List JValue → String
  | [] => ""
  | x :: xs => json_dump x ++ (if xs.isEmpty then "" else ", ") ++ dumpArr xs

/-- Comma-separated dump of object entries. -/
def dumpEntries : List (String × JValue) → String
  | [] => ""
  | (k, v) :: rest =>
    "\"" ++ escapeJson k ++ "\": " ++ json_dump v ++
      (if rest.isEmpty then "" else ", ") ++ dumpEntries rest

end

mutual

/-- The `DjangoGeoJSONEncoder` conversion pass over the document tree
(`serializers.py` lines 22-41): a `GEOSGeometry` is replaced by its GeoJSON
projection (`json.loads(o.geojson)`, the `default` hook at line 38-39); a
value of a kind with no projection rule raises `TypeError` (the behaviour
of the base encoder's `default`). -/
def encodePy : PyObj → Except PyErr JValue
  | .jval v => .ok v
  | .geos g => .ok g.geojson
  | .blob s => .error (.typeError s)
  | .list xs =>
    match encodeList xs with
    | .error e => .error e
    | .ok js => .ok (.arr js)
  | .dict kvs =>
    match encodeEntries kvs with
    | .error e => .error e
    | .ok es => .ok (.obj es)

/-- Encoder pass over a list of values. -/
def encodeList : List PyObj → Except PyErr (List JValue)
  | [] => .ok []
  | x :: xs =>
    match encodePy x with
    | .error e => .error e
    | .ok j =>
      match encodeList xs with
      | .error e => .error e
      | .ok js => .ok (j :: js)

/-- Encoder pass over the entries of a dict. -/
def encodeEntries : List (String × PyObj) → Except PyErr (List (String × JValue))
  | [] => .ok []
  | (k, v) :: rest =>
    match encodePy v with
    | .error e => .error e
    | .ok j =>
      match encodeEntries rest with
      | .error e => .error e
      | .ok es => .ok ((k, j) :: es)

end

/-- Python `getattr(obj, name)` on a record: the primary-key attribute or a
declared field; a missing name raises `AttributeError`. -/
def getattr (meta : ModelMeta) (r : Record) (name : String) :
    Except PyErr FieldVal :=
  if name == meta.pkName then .ok (.prim r.pkValue)
  else
    match dictGet r.fields name with
    | some v => .ok v
    | none => .error (.attributeError name)

/-- `start_object` (lines 95-96): open a Feature dict with the record's
primary-key value as its `id`. -/
def start_object (r : Record) : PyDict :=
  [("type", .jval (.str "Feature")),
   ("properties", .dict []),
   ("id", .jval r.pkValue)]

/-- The current Feature's `properties` sub-dict (always present, installed
by `start_object`). -/
def currentProps (cur : PyDict) : List (String × PyObj) :=
  match dictGet cur "properties" with
  | some (.dict d) => d
  | _ => []

/-- `self._current['properties'][k] = v`. -/
def setProp (cur : PyDict) (k : String) (v : PyObj) : PyDict :=
  dictSet cur "properties" (.dict (dictSet (currentProps cur) k v))

/-- `handle_field`, field-descriptor branch (lines 143-150): a geometry
value goes to the Feature's `geometry` slot, a protected scalar goes into
`properties` as is, anything else goes in as its `value_to_string`
rendering. -/
def handle_field_desc (cur : PyDict) (name : String) (v : FieldVal) : PyDict :=
  match v with
  | .geom g => dictSet cur "geometry" (.geos g)
  | .prim j => setProp cur name (.jval j)
  | .blob s => setProp cur name (.jval (.str s))

/-- Whether the `fields` option admits a field (line 210). -/
def selAllows (sel : Option (List String)) (name : String) : Bool :=
  match sel with
  | none => true
  | some l => l.contains name

/-- The per-record field loop of `serialize` (lines 202-214) restricted to
non-relational local fields: the primary-key field is skipped (lines
205-206), a field deselected by the `fields` option is skipped, every other
field goes through `handle_field`. -/
def fieldLoop (meta : ModelMeta) (sel : Option (List String)) :
    PyDict → List (String × FieldVal) → PyDict
  | cur, [] => cur
  | cur, (n, v) :: rest =>
    if n == meta.pkName then fieldLoop meta sel cur rest
    else if selAllows sel n then fieldLoop meta sel (handle_field_desc cur n v) rest
    else fieldLoop meta sel cur rest

/-- `handle_field`, attribute-name branch (lines 134-141), used for the
`geometry_field` option: the attribute named literally `geojson` is parsed
as JSON text into the `geometry` slot (a parse failure raises), a
`GEOSGeometry` value goes to the `geometry` slot, and any other value is
stored under the attribute name in `properties`. -/
def handle_field_str (env : ExternalEnv) (meta : ModelMeta) (r : Record)
    (cur : PyDict) (fname : String) : Except PyErr PyDict :=
  match getattr meta r fname with
  | .error e => .error e
  | .ok value =>
    if fname == "geojson" then
      match value with
      | .prim (.str s) =>
        match env.json_loads s with
        | .ok j => .ok (dictSet cur "geometry" (.jval j))
        | .error m => .error (.valueError m)
      | _ => .error (.typeError "json.loads expects a string value")
    else
      match value with
      | .geom g => .ok (dictSet cur "geometry" (.geos g))
      | .prim j => .ok (setProp cur fname (.jval j))
      | .blob s => .ok (setProp cur fname (.blob s))

/-- The dict branch of `end_object`'s property filter (lines 107-109): for
each `(field_name, property_name)` pair of the mapping, copy the collected
property `field_name` to the output name `property_name`; a missing field
raises `KeyError`. -/
def renameProps (cprops : List (String × PyObj)) :
    List (String × String) → List (String × PyObj) →
    Except PyErr (List (String × PyObj))
  | [], acc => .ok acc
  | (f, p) :: rest, acc =>
    match dictGet cprops f with
    | some v => renameProps cprops rest (dictSet acc p v)
    | none => .error (.keyError f)

/-- `end_object`'s property filter (lines 102-116): with no `properties`
option the Feature is kept as is; with a dict-valued option the properties
are renamed/filtered; with any other value (a list, a set, a string, ...)
the code calls `.iteritems()` on it, which raises `AttributeError`
(line 113). -/
def end_object_props (propCfg : Option OptValue) (cur : PyDict) :
    Except PyErr PyDict :=
  match propCfg with
  | none => .ok cur
  | some (.dictV m) =>
    match renameProps (currentProps cur) m [] with
    | .ok props => .ok (dictSet cur "properties" (.dict props))
    | .error e => .error e
  | some _ => .error (.attributeError "iteritems")

/-- The record-processing part of one loop iteration before `end_object`:
`start_object`, the field loop, then the `geometry_field` handling
(lines 220-221; the option is subject to Python truthiness, so an empty
string is skipped). -/
def collectCurrent (env : ExternalEnv) (meta : ModelMeta)
    (sel : Option (List String)) (gf : Option String) (r : Record) :
    Except PyErr PyDict :=
  match gf with
  | some f =>
    if f != "" then
      handle_field_str env meta r (fieldLoop meta sel (start_object r) r.fields) f
    else .ok (fieldLoop meta sel (start_object r) r.fields)
  | none => .ok (fieldLoop meta sel (start_object r) r.fields)

/-- One full iteration of the `for obj in queryset:` loop (lines 199-223)
for one record, producing the Feature appended to the collection. -/
def buildFeature (env : ExternalEnv) (meta : ModelMeta)
    (sel : Option (List String)) (gf : Option String)
    (propCfg : Option OptValue) (r : Record) : Except PyErr PyDict :=
  match collectCurrent env meta sel gf r with
  | .error e => .error e
  | .ok cur => end_object_props propCfg cur

/-- `self.selected_fields = options.get("fields")` (line 187); only a
list-valued option is modelled, any other shape behaves as absent. -/
def selected_fieldsOf (o : Options) : Option (List String) :=
  match dictGet o "fields" with
  | some (.listV l) => some l
  | _ => none

/-- `self.geometry_field = options.get("geometry_field", None)` (line 188);
only a string-valued option is modelled. -/
def geometry_fieldOf (o : Options) : Option String :=
  match dictGet o "geometry_field" with
  | some (.strV s) => some s
  | _ => none

/-- `get_geometry_field` (lines 70-93), restricted to the SRID it reports:
with a `geometryfield` option naming a declared geometry field, that
field's SRID; with a name that is not declared, `list.index` raises
`ValueError` (the `except IndexError` handler at line 88 does not catch
it); with no option, the first declared geometry field (line 92), and
`IndexError` when the model declares none.  The aggregate-function branch
(lines 79-82, a method attribute on the queryset) is not modelled: no claim
exercises it. -/
def get_geometry_field (meta : ModelMeta) (o : Options) : Except PyErr Int :=
  match dictGet o "geometryfield" with
  | some (.strV f) =>
    match meta.geometryFields.find? (fun p => p.1 == f) with
    | some p => .ok p.2
    | none => .error (.valueError "substring not found")
  | _ =>
    match meta.geometryFields with
    | p :: _ => .ok p.2
    | [] => .error (.indexError "list index out of range")

/-- `self.crs = options.get("crs", True)` (line 191). -/
def crsConfig (o : Options) : OptValue :=
  (dictGet o "crs").getD (.boolV true)

/-- `str(srid)` for the values an `srid` option can realistically hold. -/
def optStr : OptValue → String
  | .strV s => s
  | .intV n => toString n
  | .boolV b => if b then "True" else "False"
  | _ => "object"

/-- The CRS link object built by `get_crs` (lines 63-68). -/
def crsObjOf (sridStr : String) : PyObj :=
  .dict [("type", .jval (.str "link")),
         ("properties",
          .dict [("href", .jval (.str ("http://spatialreference.org/ref/epsg/"
                    ++ sridStr ++ "/"))),
                 ("type", .jval (.str "proj4"))])]

/-- `get_crs` (lines 55-68): when the `crs` configuration compares equal to
`False` the method returns `None`; otherwise it builds a CRS link object
from the `srid` option, falling back to the model's geometry field. -/
def get_crs (meta : ModelMeta) (o : Options) : Except PyErr PyObj :=
  if pyEqFalse (crsConfig o) then .ok (.jval .null)
  else
    match dictGet o "srid" with
    | some sridVal => .ok (crsObjOf (optStr sridVal))
    | none =>
      match get_geometry_field meta o with
      | .ok srid => .ok (crsObjOf (toString srid))
      | .error e => .error e

/-- The fresh document dict of line 46 with its `crs` entry assigned
(line 47). -/
def initialDoc (crsv : PyObj) : PyDict :=
  [("type", .jval (.str "FeatureCollection")),
   ("features", .list []),
   ("crs", crsv)]

/-- `start_serialization` (lines 45-53): build the document dict, assign
its `crs` entry unconditionally (line 47), then pop the `bbox` option and,
when it is truthy, store the first tuple's elements from index 1 onward as
the collection's `bbox` (line 51, `bbox[0][1:]`). -/
def start_serialization (meta : ModelMeta) (o : Options) :
    Options × Except PyErr PyDict :=
  match get_crs meta o with
  | .error e => (o, .error e)
  | .ok crsv =>
    match (optPop o "bbox").1 with
    | none => ((optPop o "bbox").2, .ok (initialDoc crsv))
    | some v =>
      if pyTruthy v then
        match v with
        | .bboxV (t :: _) =>
          ((optPop o "bbox").2,
            .ok (dictSet (initialDoc crsv) "bbox"
              (.list ((t.drop 1).map PyObj.jval))))
        | _ => ((optPop o "bbox").2,
            .error (.typeError "object is not subscriptable"))
      else ((optPop o "bbox").2, .ok (initialDoc crsv))

/-- The document-assembly part of `serialize` (lines 193-223):
`start_serialization`, then one Feature per record appended in input order
to the collection's `features` list.  The first raised error aborts the
pass.  The returned options reflect the `bbox` pop. -/
def buildDocument (env : ExternalEnv) (meta : ModelMeta)
    (records : List Record) (o : Options) : Options × Except PyErr PyDict :=
  match start_serialization meta o with
  | (o1, .error e) => (o1, .error e)
  | (o1, .ok fc0) =>
    match mapExcept
        (buildFeature env meta (selected_fieldsOf o) (geometry_fieldOf o)
          (dictGet o "properties")) records with
    | .error e => (o1, .error e)
    | .ok feats => (o1, .ok (dictSet fc0 "features" (.list (feats.map PyObj.dict))))

/-- The transient option keys popped by `end_serialization`
(lines 122-128). -/
def transientKeys : List String :=
  ["stream", "fields", "geometry_field", "properties", "use_natural_keys",
   "crs", "srid"]

/-- `end_serialization` (lines 121-130): pop the transient option keys,
then encode and dump the document.  The leftover options are forwarded to
the external encoder as keyword arguments; they configure its text
formatting and are not modelled. -/
def end_serialization (o : Options) (fc : PyDict) :
    Options × Except PyErr String :=
  let o2 := popMany o transientKeys
  match encodePy (.dict fc) with
  | .error e => (o2, .error e)
  | .ok j => (o2, .ok (json_dump j))

/-- `options.get("stream", StringIO())` (line 186): the sink's initial
content — empty for the freshly allocated in-memory buffer used when the
caller supplies none. -/
def streamOf (o : Options) : String :=
  match dictGet o "stream" with
  | some (.streamV s) => s
  | _ => ""

/-- The observable outcome of one `serialize` call: the returned value (or
the raised error), the caller's options dict as the call leaves it, and the
output sink's content. -/
structure SerOutcome where
  res : Except PyErr String
  optionsAfter : Options
  sinkAfter : String

/-- Whether a call outcome is a raised error. -/
def isErr {ε α : Type} : Except ε α → Bool
  | .error _ => true
  | .ok _ => false

/-- Whether a call outcome is a normal return. -/
def isOk {ε α : Type} : Except ε α → Bool
  | .error _ => false
  | .ok _ => true

/-- `serialize` (lines 180-225): assemble the document, then
`end_serialization` dumps it to the sink, and `getvalue` returns the sink's
content.  Nothing is written to the sink before the final dump, so any
error leaves the sink as it was. -/
def serialize (env : ExternalEnv) (meta : ModelMeta) (records : List Record)
    (o : Options) : SerOutcome :=
  let sink0 := streamOf o
  match buildDocument env meta records o with
  | (o1, .error e) => ⟨.error e, o1, sink0⟩
  | (o1, .ok fc) =>
    match end_serialization o1 fc with
    | (o2, .error e) => ⟨.error e, o2, sink0⟩
    | (o2, .ok out) => ⟨.ok (sink0 ++ out), o2, sink0 ++ out⟩

/-! ## Dictionary lemmas -/

theorem dictGet_cons {α : Type} (k0 : String) (v0 : α) (d : List (String × α))
    (k : String) :
    dictGet ((k0, v0) :: d) k = if k0 = k then some v0 else dictGet d k := by
  by_cases h : k0 = k
  · subst h
    simp [dictGet, List.find?_cons_of_pos]
  · rw [dictGet, List.find?_cons_of_neg _ (by simpa using h)]
    simp [dictGet, h]

theorem dictGet_append {α : Type} (d1 d2 : List (String × α)) (k : String) :
    dictGet (d1 ++ d2) k =
      match dictGet d1 k with
      | some v => some v
      | none => dictGet d2 k := by
  induction d1 with
  | nil => simp [dictGet]
  | cons p d1 ih =>
    obtain ⟨k0, v0⟩ := p
    by_cases h : k0 = k <;>
      simp [List.cons_append, dictGet_cons, h, ih]

theorem dictGet_dictSet_self {α : Type} (d : List (String × α)) (k : String)
    (v : α) :
    dictGet (dictSet d k v) k = some v := by
  induction d with
  | nil => simp [dictSet, dictGet_cons]
  | cons p d ih =>
    obtain ⟨k0, v0⟩ := p
    rw [dictSet]
    by_cases h0 : k0 = k
    · rw [if_pos (by simpa using h0)]
      simp [dictGet_cons]
    · rw [if_neg (by simpa using h0)]
      rw [dictGet_cons, if_neg h0]
      exact ih

theorem dictGet_dictSet_ne {α : Type} (d : List (String × α)) (k k' : String)
    (v : α) (h : ¬ k = k') :
    dictGet (dictSet d k v) k' = dictGet d k' := by
  induction d with
  | nil =>
    rw [dictSet, dictGet_cons, if_neg h]
  | cons p d ih =>
    obtain ⟨k0, v0⟩ := p
    rw [dictSet]
    by_cases h0 : k0 = k
    · rw [if_pos (by simpa using h0)]
      rw [dictGet_cons, dictGet_cons, if_neg h]
      rw [if_neg (fun hc : k0 = k' => h (h0 ▸ hc))]
    · rw [if_neg (by simpa using h0)]
      rw [dictGet_cons, dictGet_cons, ih]

theorem dictGet_filter_ne {α : Type} (d : List (String × α)) (k k' : String) :
    dictGet (d.filter (fun p => p.1 != k)) k' =
      if k' = k then none else dictGet d k' := by
  induction d with
  | nil => simp [dictGet]
  | cons p d ih =>
    obtain ⟨k0, v0⟩ := p
    rw [List.filter_cons]
    by_cases h0 : k0 = k
    · rw [if_neg (by simpa using h0)]
      rw [ih, dictGet_cons]
      by_cases hk : k' = k
      · rw [if_pos hk, if_pos hk]
      · rw [if_neg hk, if_neg hk,
          if_neg (fun hc : k0 = k' => hk (hc.symm.trans h0))]
    · rw [if_pos (by simpa using h0)]
      rw [dictGet_cons, dictGet_cons, ih]
      by_cases h1 : k0 = k'
      · rw [if_pos h1, if_pos h1,
          if_neg (fun hc : k' = k => h0 (h1.trans hc))]
      · rw [if_neg h1, if_neg h1]

theorem dictGet_popMany (ks : List String) (d : Options) (k : String) :
    dictGet (popMany d ks) k = if k ∈ ks then none else dictGet d k := by
  induction ks generalizing d with
  | nil => simp [popMany]
  | cons k0 ks ih =>
    rw [popMany, ih]
    simp only [optPop]
    rw [dictGet_filter_ne]
    by_cases h1 : k ∈ ks
    · simp [h1]
    · by_cases h2 : k = k0 <;> simp [h1, h2]

theorem dictSet_eq_append {α : Type} (d : List (String × α)) (k : String)
    (v : α) (h : dictGet d k = none) :
    dictSet d k v = d ++ [(k, v)] := by
  induction d with
  | nil => rfl
  | cons p d ih =>
    obtain ⟨k0, v0⟩ := p
    rw [dictGet_cons] at h
    by_cases h0 : k0 = k
    · rw [if_pos h0] at h
      cases h
    · rw [if_neg h0] at h
      rw [dictSet, if_neg (by simpa using h0), ih h]
      rfl

/-! ## `mapExcept` lemmas -/

theorem mapExcept_ok_length {ε α β : Type} (f : α → Except ε β)
    (xs : List α) (ys : List β) (h : mapExcept f xs = .ok ys) :
    ys.length = xs.length := by
  induction xs generalizing ys with
  | nil =>
    simp only [mapExcept] at h
    cases h
    rfl
  | cons x xs ih =>
    simp only [mapExcept] at h
    cases hx : f x with
    | error e => rw [hx] at h; cases h
    | ok y =>
      rw [hx] at h
      cases hxs : mapExcept f xs with
      | error e => rw [hxs] at h; cases h
      | ok ys' =>
        rw [hxs] at h
        cases h
        simp [ih ys' hxs]

theorem mapExcept_ok_get {ε α β : Type} (f : α → Except ε β)
    (xs : List α) (ys : List β) (h : mapExcept f xs = .ok ys)
    (i : Nat) (hi : i < xs.length) (hj : i < ys.length) :
    f (xs.get ⟨i, hi⟩) = .ok (ys.get ⟨i, hj⟩) := by
  induction xs generalizing ys i with
  | nil => simp at hi
  | cons x xs ih =>
    simp only [mapExcept] at h
    cases hx : f x with
    | error e => rw [hx] at h; cases h
    | ok y =>
      rw [hx] at h
      cases hxs : mapExcept f xs with
      | error e => rw [hxs] at h; cases h
      | ok ys' =>
        rw [hxs] at h
        cases h
        cases i with
        | zero => simpa using hx
        | succ n =>
          have hn : n < xs.length := Nat.lt_of_succ_lt_succ hi
          have hn' : n < ys'.length := Nat.lt_of_succ_lt_succ hj
          simpa using ih ys' hxs n hn hn'

theorem mapExcept_error_of_mem {ε α β : Type} (f : α → Except ε β)
    (xs : List α) (x : α) (e : ε) (hmem : x ∈ xs) (hx : f x = .error e) :
    ∃ e', mapExcept f xs = .error e' := by
  induction xs with
  | nil => simp at hmem
  | cons x0 xs ih =>
    rcases List.mem_cons.mp hmem with h1 | h1
    · subst h1
      exact ⟨e, by simp [mapExcept, hx]⟩
    · cases hx0 : f x0 with
      | error e0 => exact ⟨e0, by simp [mapExcept, hx0]⟩
      | ok y =>
        obtain ⟨e', he'⟩ := ih h1
        exact ⟨e', by simp [mapExcept, hx0, he']⟩

/-! ## Feature-pipeline lemmas -/

theorem dictGet_setProp_ne (cur : PyDict) (n : String) (v : PyObj) (k : String)
    (h : ¬ "properties" = k) :
    dictGet (setProp cur n v) k = dictGet cur k := by
  unfold setProp
  exact dictGet_dictSet_ne _ _ _ _ h

theorem dictGet_handle_field_desc_ne (cur : PyDict) (n : String) (v : FieldVal)
    (k : String) (hg : ¬ "geometry" = k) (hp : ¬ "properties" = k) :
    dictGet (handle_field_desc cur n v) k = dictGet cur k := by
  cases v with
  | geom g => exact dictGet_dictSet_ne _ _ _ _ hg
  | prim j => exact dictGet_setProp_ne _ _ _ _ hp
  | blob s => exact dictGet_setProp_ne _ _ _ _ hp

theorem dictGet_fieldLoop_ne (meta : ModelMeta) (sel : Option (List String))
    (fields : List (String × FieldVal)) (cur : PyDict) (k : String)
    (hg : ¬ "geometry" = k) (hp : ¬ "properties" = k) :
    dictGet (fieldLoop meta sel cur fields) k = dictGet cur k := by
  induction fields generalizing cur with
  | nil => rfl
  | cons p fields ih =>
    obtain ⟨n, v⟩ := p
    rw [fieldLoop]
    by_cases h0 : (n == meta.pkName) = true
    · rw [if_pos h0]
      exact ih cur
    · rw [if_neg h0]
      by_cases h1 : selAllows sel n = true
      · rw [if_pos h1]
        rw [ih (handle_field_desc cur n v)]
        exact dictGet_handle_field_desc_ne cur n v k hg hp
      · rw [if_neg h1]
        exact ih cur

theorem handle_field_str_ok_ne (env : ExternalEnv) (meta : ModelMeta)
    (r : Record) (cur cur2 : PyDict) (f : String) (k : String)
    (h : handle_field_str env meta r cur f = .ok cur2)
    (hg : ¬ "geometry" = k) (hp : ¬ "properties" = k) :
    dictGet cur2 k = dictGet cur k := by
  unfold handle_field_str at h
  split at h
  · cases h
  · split at h
    · split at h
      · split at h
        · cases h
          exact dictGet_dictSet_ne _ _ _ _ hg
        · cases h
      · cases h
    · split at h
      · cases h
        exact dictGet_dictSet_ne _ _ _ _ hg
      · cases h
        exact dictGet_setProp_ne _ _ _ _ hp
      · cases h
        exact dictGet_setProp_ne _ _ _ _ hp

theorem end_object_props_ok_ne (propCfg : Option OptValue) (cur ft : PyDict)
    (k : String) (h : end_object_props propCfg cur = .ok ft)
    (hp : ¬ "properties" = k) :
    dictGet ft k = dictGet cur k := by
  unfold end_object_props at h
  split at h
  · cases h
    rfl
  · split at h
    · cases h
      exact dictGet_dictSet_ne _ _ _ _ hp
    · cases h
  · cases h

theorem collectCurrent_ok_ne (env : ExternalEnv) (meta : ModelMeta)
    (sel : Option (List String)) (gf : Option String) (r : Record)
    (cur : PyDict) (k : String)
    (h : collectCurrent env meta sel gf r = .ok cur)
    (hg : ¬ "geometry" = k) (hp : ¬ "properties" = k) :
    dictGet cur k = dictGet (start_object r) k := by
  unfold collectCurrent at h
  split at h
  · split at h
    · rw [handle_field_str_ok_ne env meta r _ cur _ k h hg hp]
      exact dictGet_fieldLoop_ne meta sel r.fields _ k hg hp
    · cases h
      exact dictGet_fieldLoop_ne meta sel r.fields _ k hg hp
  · cases h
    exact dictGet_fieldLoop_ne meta sel r.fields _ k hg hp

/-- The encoder pass translates dictionary entries pointwise: a key bound in
the source dict is bound in the encoded object to the encoded value. -/
theorem encodeEntries_get (kvs : List (String × PyObj))
    (es : List (String × JValue)) (k : String) (v : PyObj)
    (h : encodeEntries kvs = .ok es) (hk : dictGet kvs k = some v) :
    ∃ j, encodePy v = .ok j ∧ dictGet es k = some j := by
  induction kvs generalizing es with
  | nil => cases hk
  | cons p kvs ih =>
    obtain ⟨k0, v0⟩ := p
    rw [encodeEntries] at h
    cases he : encodePy v0 with
    | error e => rw [he] at h; cases h
    | ok j0 =>
      rw [he] at h
      cases hes : encodeEntries kvs with
      | error e => rw [hes] at h; cases h
      | ok es' =>
        rw [hes] at h
        cases h
        rw [dictGet_cons] at hk
        by_cases h0 : k0 = k
        · rw [if_pos h0] at hk
          cases hk
          exact ⟨j0, he, by rw [dictGet_cons, if_pos h0]⟩
        · rw [if_neg h0] at hk
          obtain ⟨j, hj1, hj2⟩ := ih es' hes hk
          exact ⟨j, hj1, by rw [dictGet_cons, if_neg h0]; exact hj2⟩

/-- Specification of `renameProps`: with pairwise-distinct output names, the
successful fold produces exactly the accumulated keys followed by the mapped
output names, each mapped name bound to the source field's collected
value. -/
theorem renameProps_spec (cprops : List (String × PyObj))
    (m : List (String × String)) (acc props : List (String × PyObj))
    (h : renameProps cprops m acc = .ok props)
    (hnd : (m.map Prod.snd).Nodup)
    (hdisj : ∀ k, k ∈ acc.map Prod.fst → k ∉ m.map Prod.snd) :
    props.map Prod.fst = acc.map Prod.fst ++ m.map Prod.snd ∧
    (∀ f p, (f, p) ∈ m →
      ∃ v, dictGet cprops f = some v ∧ dictGet props p = some v) ∧
    (∀ k, k ∉ m.map Prod.snd → dictGet props k = dictGet acc k) := by
  induction m generalizing acc with
  | nil =>
    rw [renameProps] at h
    cases h
    exact ⟨by simp, fun f p hfp => absurd hfp (List.not_mem_nil _),
      fun k _ => rfl⟩
  | cons fp m ih =>
    obtain ⟨f0, p0⟩ := fp
    rw [renameProps] at h
    cases hv : dictGet cprops f0 with
    | none => rw [hv] at h; cases h
    | some v0 =>
      rw [hv] at h
      have hp0acc : dictGet acc p0 = none := by
        by_cases hmem : p0 ∈ acc.map Prod.fst
        · exact absurd (by simp) (hdisj p0 hmem)
        · rcases hg : dictGet acc p0 with _ | w
          · rfl
          · exfalso
            apply hmem
            unfold dictGet at hg
            rcases hfind : acc.find? (fun p => p.1 == p0) with _ | q
            · rw [hfind] at hg; cases hg
            · have := List.find?_some hfind
              have hq : q.1 = p0 := by simpa using this
              have hqm := List.mem_of_find?_eq_some hfind
              rw [List.mem_map]
              exact ⟨q, hqm, hq⟩
      have hset : dictSet acc p0 v0 = acc ++ [(p0, v0)] :=
        dictSet_eq_append acc p0 v0 hp0acc
      have hnd' : (m.map Prod.snd).Nodup := by
        simpa using hnd.of_cons
      have hp0nm : p0 ∉ m.map Prod.snd := by
        have := hnd
        simp only [List.map_cons, List.nodup_cons] at this
        exact this.1
      have hdisj' : ∀ k, k ∈ (dictSet acc p0 v0).map Prod.fst →
          k ∉ m.map Prod.snd := by
        intro k hkmem
        rw [hset] at hkmem
        simp only [List.map_append, List.mem_append, List.map_cons,
          List.mem_singleton] at hkmem
        rcases hkmem with hk | hk
        · intro hc
          exact hdisj k hk (by simp [hc])
        · simp only [List.map_cons, List.map_nil, List.mem_cons,
            List.not_mem_nil, or_false] at hk
          rw [hk]
          exact hp0nm
      obtain ⟨h1, h2, h3⟩ := ih (dictSet acc p0 v0) h hnd' hdisj'
      refine ⟨?_, ?_, ?_⟩
      · rw [h1, hset]
        simp
      · intro f p hfp
        rcases List.mem_cons.mp hfp with heq | hmem
        · cases heq
          refine ⟨v0, hv, ?_⟩
          rw [h3 p0 hp0nm, hset, dictGet_append, hp0acc]
          rw [dictGet_cons, if_pos rfl]
        · exact h2 f p hmem
      · intro k hk
        have hk1 : k ∉ m.map Prod.snd := by
          intro hc
          exact hk (by simp [hc])
        have hk0 : ¬ p0 = k := by
          intro hc
          exact hk (by simp [hc])
        rw [h3 k hk1, dictGet_dictSet_ne _ _ _ _ hk0]

/-! ## Document-assembly lemmas -/

theorem start_serialization_crs (meta : ModelMeta) (o o1 : Options)
    (fc0 : PyDict) (crsv : PyObj)
    (h : start_serialization meta o = (o1, .ok fc0))
    (hcrs : get_crs meta o = .ok crsv) :
    dictGet fc0 "crs" = some crsv := by
  unfold start_serialization at h
  split at h
  · cases h
  · rename_i crsv2 hcg
    rw [hcrs] at hcg
    cases hcg
    split at h
    · cases h
      rfl
    · split at h
      · split at h
        · cases h
          rw [dictGet_dictSet_ne _ _ _ _ (by decide)]
          rfl
        · cases h
      · cases h
        rfl

theorem start_serialization_bbox (meta : ModelMeta) (o o1 : Options)
    (fc0 : PyDict) (t : List JValue) (rest : List (List JValue))
    (h : start_serialization meta o = (o1, .ok fc0))
    (hb : dictGet o "bbox" = some (.bboxV (t :: rest))) :
    dictGet fc0 "bbox" = some (.list ((t.drop 1).map PyObj.jval)) := by
  unfold start_serialization at h
  split at h
  · cases h
  · split at h
    · rename_i hnone
      simp only [optPop] at hnone
      rw [hb] at hnone
      cases hnone
    · rename_i v hsome
      simp only [optPop] at hsome
      rw [hb] at hsome
      cases hsome
      split at h
      · split at h
        · rename_i hv
          cases hv
          cases h
          exact dictGet_dictSet_self _ _ _
        · rename_i hv
          exact (hv t rest rfl).elim
      · rename_i htr
        exact absurd rfl htr

theorem start_serialization_ok_options (meta : ModelMeta) (o o1 : Options)
    (fc0 : PyDict) (h : start_serialization meta o = (o1, .ok fc0)) :
    o1 = o.filter (fun p => p.1 != "bbox") := by
  unfold start_serialization at h
  split at h
  · cases h
  · split at h
    · cases h
      rfl
    · split at h
      · split at h
        · cases h
          rfl
        · cases h
      · cases h
        rfl

theorem buildDocument_ok_options (env : ExternalEnv) (meta : ModelMeta)
    (records : List Record) (o o1 : Options) (fc : PyDict)
    (h : buildDocument env meta records o = (o1, .ok fc)) :
    o1 = o.filter (fun p => p.1 != "bbox") := by
  unfold buildDocument at h
  split at h
  · cases h
  · rename_i oa fc0 hss
    split at h
    · cases h
    · cases h
      exact start_serialization_ok_options meta o _ _ hss

/-! ## Claim theorems -/

/-- **C2.** For every record whose designated geometry field holds a valid
polygon — materialized, as the ORM does for a syntactically valid
well-known-text string, as a GEOS geometry object `g` — a successful
`serialize` pass builds a Feature whose `geometry` member is that geometry
object, and the encoder emits exactly `g.geojson`, the standard GeoJSON
projection the external geometry library computes for the polygon
(`handle_field` lines 138-139, `serialize` lines 220-221, encoder lines
38-39). -/
theorem geometry_field_projects_to_geojson (env : ExternalEnv)
    (meta : ModelMeta) (sel : Option (List String)) (propCfg : Option OptValue)
    (r : Record) (gf : String) (g : GEOSGeometry) (ft : PyDict)
    (hgf1 : gf ≠ "geojson") (hgf2 : gf ≠ "")
    (hval : getattr meta r gf = .ok (.geom g))
    (hbf : buildFeature env meta sel (some gf) propCfg r = .ok ft) :
    dictGet ft "geometry" = some (.geos g) ∧
    ∀ es, encodeEntries ft = .ok es → dictGet es "geometry" = some g.geojson := by
  unfold buildFeature at hbf
  split at hbf
  · cases hbf
  · rename_i cur hcc
    have hred : collectCurrent env meta sel (some gf) r =
        handle_field_str env meta r
          (fieldLoop meta sel (start_object r) r.fields) gf := by
      simp only [collectCurrent]
      rw [if_pos (by simpa using hgf2)]
    rw [hred] at hcc
    unfold handle_field_str at hcc
    split at hcc
    · cases hcc
    · rename_i value heq
      split at hcc
      · rename_i hcond
        exact absurd (by simpa using hcond) hgf1
      · split at hcc
        · rename_i g2
          rw [hval] at heq
          cases heq
          cases hcc
          have hft : dictGet ft "geometry" = some (.geos g) := by
            rw [end_object_props_ok_ne propCfg _ ft "geometry" hbf (by decide)]
            exact dictGet_dictSet_self _ _ _
          refine ⟨hft, ?_⟩
          intro es hes
          obtain ⟨j, hj1, hj2⟩ := encodeEntries_get ft es "geometry" _ hes hft
          simp only [encodePy] at hj1
          cases hj1
          exact hj2
        · rename_i j2
          rw [hval] at heq
          cases heq
        · rename_i s2
          rw [hval] at heq
          cases heq

/-- **C4.** For every record and every rename-mapping `properties`
configuration (with pairwise-distinct output names, as a Python dict's
values used as keys must be to mean a renaming), a successfully emitted
Feature's `properties` object holds exactly the mapped output names — in
mapping order, with no other keys — each bound to the value collected for
the corresponding source field (`end_object` lines 102-116). -/
theorem rename_mapping_properties_exact (env : ExternalEnv) (meta : ModelMeta)
    (sel : Option (List String)) (gf : Option String)
    (m : List (String × String)) (r : Record) (ft : PyDict)
    (hnd : (m.map Prod.snd).Nodup)
    (hbf : buildFeature env meta sel gf (some (.dictV m)) r = .ok ft) :
    ∃ cur props,
      collectCurrent env meta sel gf r = .ok cur ∧
      dictGet ft "properties" = some (.dict props) ∧
      props.map Prod.fst = m.map Prod.snd ∧
      ∀ f p, (f, p) ∈ m →
        ∃ v, dictGet (currentProps cur) f = some v ∧
          dictGet props p = some v := by
  unfold buildFeature at hbf
  split at hbf
  · cases hbf
  · rename_i cur hcc
    simp only [end_object_props] at hbf
    split at hbf
    · rename_i props hr
      cases hbf
      obtain ⟨h1, h2, _⟩ := renameProps_spec (currentProps cur) m [] props hr
        hnd (by intro k hk; simp at hk)
      refine ⟨cur, props, hcc, dictGet_dictSet_self _ _ _, ?_, h2⟩
      simpa using h1
    · cases hbf

/-- **C5 (amended).** The Feature identifier is always the record's
conventional primary-key attribute (`obj.pk`): `start_object` (line 96)
stores it unconditionally, and no later step of the per-record pipeline
touches the `id` entry.  No `primary_key` configuration is consulted —
none exists in the code. -/
theorem feature_id_is_record_pk (env : ExternalEnv) (meta : ModelMeta)
    (sel : Option (List String)) (gf : Option String)
    (propCfg : Option OptValue) (r : Record) (ft : PyDict)
    (hbf : buildFeature env meta sel gf propCfg r = .ok ft) :
    dictGet ft "id" = some (.jval r.pkValue) := by
  unfold buildFeature at hbf
  split at hbf
  · cases hbf
  · rename_i cur hcc
    rw [end_object_props_ok_ne propCfg cur ft "id" hbf (by decide)]
    rw [collectCurrent_ok_ne env meta sel gf r cur "id" hcc (by decide)
      (by decide)]
    rfl

/-- **C6 (amended).** With `crs` configured `false`, the produced document
contains a `crs` key whose value is null: line 47 assigns
`feature_collection["crs"]` unconditionally, and `get_crs` returns `None`
when the configuration compares equal to `False` (lines 56-57).  The key is
present with a null value, not omitted. -/
theorem crs_false_yields_null_entry (env : ExternalEnv) (meta : ModelMeta)
    (records : List Record) (o o1 : Options) (fc : PyDict)
    (hcrs : dictGet o "crs" = some (.boolV false))
    (hbd : buildDocument env meta records o = (o1, .ok fc)) :
    dictGet fc "crs" = some (.jval .null) := by
  have hget : get_crs meta o = .ok (.jval .null) := by
    unfold get_crs crsConfig
    rw [hcrs]
    rw [if_pos (by rfl)]
  unfold buildDocument at hbd
  split at hbd
  · cases hbd
  · rename_i oa fc0 hss
    split at hbd
    · cases hbd
    · cases hbd
      rw [dictGet_dictSet_ne _ _ _ _ (by decide)]
      exact start_serialization_crs meta o _ _ _ hss hget

/-- **C8.** When the `bbox` option holds a non-empty sequence of tuples,
the collection's `bbox` entry is exactly the first tuple's elements from
index 1 onward (`start_serialization` line 51, `bbox[0][1:]`), regardless
of the tuple's stated `[minx, miny, maxx, maxy]` shape. -/
theorem bbox_entry_is_first_tuple_tail (env : ExternalEnv) (meta : ModelMeta)
    (records : List Record) (o o1 : Options) (fc : PyDict)
    (t : List JValue) (rest : List (List JValue))
    (hb : dictGet o "bbox" = some (.bboxV (t :: rest)))
    (hbd : buildDocument env meta records o = (o1, .ok fc)) :
    dictGet fc "bbox" = some (.list ((t.drop 1).map PyObj.jval)) := by
  unfold buildDocument at hbd
  split at hbd
  · cases hbd
  · rename_i oa fc0 hss
    split at hbd
    · cases hbd
    · cases hbd
      rw [dictGet_dictSet_ne _ _ _ _ (by decide)]
      exact start_serialization_bbox meta o _ _ t rest hss hb

theorem serialize_of_bd_error (env : ExternalEnv) (meta : ModelMeta)
    (records : List Record) (o oa : Options) (e : PyErr)
    (h : buildDocument env meta records o = (oa, .error e)) :
    serialize env meta records o = ⟨.error e, oa, streamOf o⟩ := by
  unfold serialize
  rw [h]

theorem serialize_of_bd_ok (env : ExternalEnv) (meta : ModelMeta)
    (records : List Record) (o oa : Options) (fc : PyDict)
    (h : buildDocument env meta records o = (oa, .ok fc)) :
    serialize env meta records o =
      match end_serialization oa fc with
      | (o2, .error e) => ⟨.error e, o2, streamOf o⟩
      | (o2, .ok out) => ⟨.ok (streamOf o ++ out), o2, streamOf o ++ out⟩ := by
  unfold serialize
  rw [h]

/-- **C1.** For every record sequence a successful `serialize` pass builds
a FeatureCollection whose `features` list has exactly one Feature per input
record, the Feature at index `i` being the one `end_object` built from the
record at index `i`: feature order equals record order, with no reordering
and no deduplication (`serialize` lines 199-224, `end_object`
line 118). -/
theorem features_match_records (env : ExternalEnv) (meta : ModelMeta)
    (records : List Record) (o o1 : Options) (fc : PyDict)
    (_hne : records ≠ [])
    (hbd : buildDocument env meta records o = (o1, .ok fc)) :
    ∃ feats : List PyDict,
      dictGet fc "features" = some (.list (feats.map PyObj.dict)) ∧
      feats.length = records.length ∧
      ∀ i (hi : i < records.length) (hf : i < feats.length),
        buildFeature env meta (selected_fieldsOf o) (geometry_fieldOf o)
          (dictGet o "properties") (records.get ⟨i, hi⟩) =
          .ok (feats.get ⟨i, hf⟩) := by
  unfold buildDocument at hbd
  split at hbd
  · cases hbd
  · split at hbd
    · cases hbd
    · rename_i feats hmap
      cases hbd
      refine ⟨feats, dictGet_dictSet_self _ _ _,
        mapExcept_ok_length _ _ _ hmap, ?_⟩
      intro i hi hf
      exact mapExcept_ok_get _ _ _ hmap i hi hf

/-- **C3.** When some record's designated geometry value cannot be parsed —
here the in-source parse site, `json.loads` on the attribute named
`geojson` (`handle_field` lines 136-137) — the whole `serialize` call
raises and commits nothing to the sink: the sink is only ever written by
the final `json.dump` of `end_serialization` (line 130), which is never
reached, so a fresh default sink stays empty. -/
theorem parse_error_aborts_with_empty_sink (env : ExternalEnv)
    (meta : ModelMeta) (records : List Record) (o : Options) (r : Record)
    (s m : String)
    (hgf : geometry_fieldOf o = some "geojson")
    (hmem : r ∈ records)
    (hval : getattr meta r "geojson" = .ok (.prim (.str s)))
    (hjl : env.json_loads s = .error m)
    (hstream : dictGet o "stream" = none) :
    isErr (serialize env meta records o).res = true ∧
    (serialize env meta records o).sinkAfter = "" := by
  have hsink0 : streamOf o = "" := by
    unfold streamOf
    rw [hstream]
  have hbf : buildFeature env meta (selected_fieldsOf o) (geometry_fieldOf o)
      (dictGet o "properties") r = .error (.valueError m) := by
    rw [hgf]
    unfold buildFeature
    have hred : collectCurrent env meta (selected_fieldsOf o)
        (some "geojson") r =
        handle_field_str env meta r
          (fieldLoop meta (selected_fieldsOf o) (start_object r) r.fields)
          "geojson" := by
      simp only [collectCurrent]
      rw [if_pos (by decide)]
    rw [hred]
    have hh : handle_field_str env meta r
        (fieldLoop meta (selected_fieldsOf o) (start_object r) r.fields)
        "geojson" = .error (.valueError m) := by
      unfold handle_field_str
      rw [hval]
      simp [hjl]
    rw [hh]
  obtain ⟨e', he'⟩ := mapExcept_error_of_mem _ records r _ hmem hbf
  have hbd : ∀ p, buildDocument env meta records o = p → isErr p.2 = true := by
    intro p hp
    unfold buildDocument at hp
    split at hp
    · cases hp
      rfl
    · split at hp
      · cases hp
        rfl
      · rename_i feats hmap
        rw [he'] at hmap
        cases hmap
  rcases hbd2 : buildDocument env meta records o with ⟨oa, dres⟩
  have hde := hbd _ hbd2
  cases dres with
  | error e =>
    rw [serialize_of_bd_error env meta records o oa e hbd2]
    exact ⟨rfl, hsink0⟩
  | ok fc => simp [isErr] at hde

/-- **C9.** Two `serialize` calls over the same records whose
configurations hold the same values (and whose output sinks start with the
same — e.g. fresh empty — content) return byte-identical output and leave
byte-identical sink contents: every piece of per-call state is
reinitialized from the arguments at entry (lines 184-191, 45-53), so
nothing of a previous call can leak in. -/
theorem same_config_same_output (env : ExternalEnv) (meta : ModelMeta)
    (records : List Record) (o o' : Options)
    (hopts : ∀ k, ¬ k = "stream" → dictGet o k = dictGet o' k)
    (hsink : streamOf o = streamOf o') :
    (serialize env meta records o).res = (serialize env meta records o').res ∧
    (serialize env meta records o).sinkAfter =
      (serialize env meta records o').sinkAfter := by
  have hcrs : get_crs meta o = get_crs meta o' := by
    unfold get_crs crsConfig get_geometry_field
    rw [hopts "crs" (by decide), hopts "srid" (by decide),
      hopts "geometryfield" (by decide)]
  have hss : (start_serialization meta o).2 =
      (start_serialization meta o').2 := by
    unfold start_serialization
    simp only [optPop]
    rw [hcrs, hopts "bbox" (by decide)]
    cases hc : get_crs meta o' with
    | error e => rfl
    | ok crsv =>
      cases hb : dictGet o' "bbox" with
      | none => rfl
      | some v =>
        dsimp only
        by_cases htr : pyTruthy v = true
        · rw [if_pos htr, if_pos htr]
          cases v with
          | bboxV b => cases b <;> rfl
          | boolV b => rfl
          | strV s => rfl
          | intV n => rfl
          | listV l => rfl
          | dictV m => rfl
          | streamV s => rfl
          | otherV t => rfl
        · rw [if_neg htr, if_neg htr]
  have hsel : selected_fieldsOf o = selected_fieldsOf o' := by
    unfold selected_fieldsOf
    rw [hopts "fields" (by decide)]
  have hgfo : geometry_fieldOf o = geometry_fieldOf o' := by
    unfold geometry_fieldOf
    rw [hopts "geometry_field" (by decide)]
  have hpo : dictGet o "properties" = dictGet o' "properties" :=
    hopts "properties" (by decide)
  have hbd : (buildDocument env meta records o).2 =
      (buildDocument env meta records o').2 := by
    unfold buildDocument
    rw [hsel, hgfo, hpo]
    rcases h1 : start_serialization meta o with ⟨oa, ra⟩
    rcases h2 : start_serialization meta o' with ⟨ob, rb⟩
    have hr : ra = rb := by
      have e1 : (start_serialization meta o).2 = ra := by rw [h1]
      have e2 : (start_serialization meta o').2 = rb := by rw [h2]
      rw [← e1, ← e2]
      exact hss
    cases hr
    cases ra with
    | error e => rfl
    | ok fc0 =>
      cases mapExcept
        (buildFeature env meta (selected_fieldsOf o') (geometry_fieldOf o')
          (dictGet o' "properties")) records <;> rfl
  rcases hb1 : buildDocument env meta records o with ⟨oa, ra⟩
  rcases hb2 : buildDocument env meta records o' with ⟨ob, rb⟩
  have hr : ra = rb := by
    have e1 : (buildDocument env meta records o).2 = ra := by rw [hb1]
    have e2 : (buildDocument env meta records o').2 = rb := by rw [hb2]
    rw [← e1, ← e2]
    exact hbd
  cases hr
  cases ra with
  | error e =>
    rw [serialize_of_bd_error env meta records o oa e hb1,
      serialize_of_bd_error env meta records o' ob e hb2]
    exact ⟨rfl, hsink⟩
  | ok fc =>
    rw [serialize_of_bd_ok env meta records o oa fc hb1,
      serialize_of_bd_ok env meta records o' ob fc hb2]
    have hend : (end_serialization oa fc).2 = (end_serialization ob fc).2 := by
      unfold end_serialization
      cases encodePy (.dict fc) <;> rfl
    rcases he1 : end_serialization oa fc with ⟨o2a, ea⟩
    rcases he2 : end_serialization ob fc with ⟨o2b, eb⟩
    have hre : ea = eb := by
      have e1 : (end_serialization oa fc).2 = ea := by rw [he1]
      have e2 : (end_serialization ob fc).2 = eb := by rw [he2]
      rw [← e1, ← e2]
      exact hend
    cases hre
    cases ea with
    | error e2 => exact ⟨rfl, hsink⟩
    | ok out =>
      constructor
      · show Except.ok (streamOf o ++ out) = Except.ok (streamOf o' ++ out)
        rw [hsink]
      · show streamOf o ++ out = streamOf o' ++ out
        rw [hsink]

/-- **C10 (amended).** Every completed `serialize` call has removed the
keys `stream`, `fields`, `geometry_field`, `properties`,
`use_natural_keys`, `crs`, `srid` (`end_serialization` lines 122-128) *and*
`bbox` (`start_serialization` line 49) from the caller's aliased options
dictionary, while every other key keeps its value. -/
theorem completed_call_pops_transient_options (env : ExternalEnv)
    (meta : ModelMeta) (records : List Record) (o : Options)
    (hok : isOk (serialize env meta records o).res = true) :
    (∀ k, k ∈ transientKeys ++ ["bbox"] →
      dictGet (serialize env meta records o).optionsAfter k = none) ∧
    (∀ k, k ∉ transientKeys ++ ["bbox"] →
      dictGet (serialize env meta records o).optionsAfter k = dictGet o k) := by
  rcases hbd : buildDocument env meta records o with ⟨oa, dres⟩
  cases dres with
  | error e =>
    rw [serialize_of_bd_error env meta records o oa e hbd] at hok
    simp [isOk] at hok
  | ok fc =>
    have hoa : oa = o.filter (fun p => p.1 != "bbox") :=
      buildDocument_ok_options env meta records o oa fc hbd
    have hser := serialize_of_bd_ok env meta records o oa fc hbd
    have hend : (end_serialization oa fc).1 = popMany oa transientKeys := by
      unfold end_serialization
      cases encodePy (.dict fc) <;> rfl
    have hafter : (serialize env meta records o).optionsAfter =
        popMany oa transientKeys := by
      rw [hser]
      rcases hes : end_serialization oa fc with ⟨o2, eres⟩
      have h1 : o2 = popMany oa transientKeys := by
        rw [← hend, hes]
      cases eres <;> exact h1
    constructor
    · intro k hk
      rw [hafter, hoa, dictGet_popMany]
      by_cases h1 : k ∈ transientKeys
      · rw [if_pos h1]
      · have hkb : k = "bbox" := by
          rcases List.mem_append.mp hk with hc | hc
          · exact absurd hc h1
          · simpa using hc
        rw [if_neg h1, dictGet_filter_ne, if_pos hkb]
    · intro k hk
      have h1 : k ∉ transientKeys := fun hc =>
        hk (List.mem_append.mpr (Or.inl hc))
      have h2 : ¬ k = "bbox" := fun hc => hk (by simp [hc])
      rw [hafter, hoa, dictGet_popMany, if_neg h1, dictGet_filter_ne,
        if_neg h2]

/-! ## Concrete instances -/

/-- A concrete external environment whose JSON text parser rejects every
input, reporting the input as the message (used where a parse failure is
needed; claims about successful runs never reach it). -/
def env0 : ExternalEnv := ⟨fun s => .error s⟩

/-- A model with primary key `id` and one geometry field `geom` with
SRID 4326. -/
def meta0 : ModelMeta := ⟨"id", [("geom", 4326)]⟩

/-- A GEOS polygon object, carrying the GeoJSON projection the external
library computes for the well-known text
`POLYGON ((0 0, 4 0, 4 4, 0 0))`. -/
def gPoly : GEOSGeometry :=
  ⟨.obj [("type", .str "Polygon"),
         ("coordinates",
          .arr [.arr [.arr [.int 0, .int 0], .arr [.int 4, .int 0],
                      .arr [.int 4, .int 4], .arr [.int 0, .int 0]]])]⟩

/-- A plain record: pk 1, one scalar field `name`. -/
def rA : Record := ⟨.int 1, [("id", .prim (.int 1)), ("name", .prim (.str "A"))]⟩

/-- A record with a geometry field holding the polygon. -/
def rGeo : Record :=
  ⟨.int 1, [("id", .prim (.int 1)), ("name", .prim (.str "A")),
            ("geom", .geom gPoly)]⟩

/-- A record whose `geojson` attribute holds unparseable text. -/
def rBad : Record :=
  ⟨.int 2, [("id", .prim (.int 2)), ("geojson", .prim (.str "not json"))]⟩

/-- A record with pk 1 and a `code` field whose value 7 differs from the
pk. -/
def rCode : Record := ⟨.int 1, [("id", .prim (.int 1)), ("code", .prim (.int 7))]⟩

/-- A record with pk 3 and a `pop` field holding 42. -/
def rPop : Record := ⟨.int 3, [("id", .prim (.int 3)), ("pop", .prim (.int 42))]⟩

/-- The Feature built from `rA`. -/
def ftA : PyDict :=
  [("type", .jval (.str "Feature")),
   ("properties", .dict [("name", .jval (.str "A"))]),
   ("id", .jval (.int 1))]

/-- The Feature built from `rGeo` with `geometry_field = "geom"`. -/
def ftGeo : PyDict :=
  [("type", .jval (.str "Feature")),
   ("properties", .dict [("name", .jval (.str "A"))]),
   ("id", .jval (.int 1)),
   ("geometry", .geos gPoly)]

/-- The Feature built from `rPop` under `properties = {"pop": "population"}`. -/
def ftPop : PyDict :=
  [("type", .jval (.str "Feature")),
   ("properties", .dict [("population", .jval (.int 42))]),
   ("id", .jval (.int 3))]

/-- The document built from `[rA]` with `crs = false`. -/
def fcA : PyDict :=
  [("type", .jval (.str "FeatureCollection")),
   ("features", .list [.dict ftA]),
   ("crs", .jval .null)]

/-- The document built from `[rA]` with `crs = false` and a bbox option of
`[(0, 1, 2, 3)]`. -/
def fc8 : PyDict :=
  [("type", .jval (.str "FeatureCollection")),
   ("features", .list [.dict ftA]),
   ("crs", .jval .null),
   ("bbox", .list [.jval (.int 1), .jval (.int 2), .jval (.int 3)])]

/-- The first Feature's `id` entry of a successfully assembled document
(`none` when the pass raised or the shape is unexpected). -/
def firstFeatureId (x : Options × Except PyErr PyDict) : Option PyObj :=
  match x.2 with
  | .ok fc =>
    match dictGet fc "features" with
    | some (.list (PyObj.dict f :: _)) => dictGet f "id"
    | _ => none
  | .error _ => none

/-- A successfully assembled document's entry at a key (`none` when the
pass raised). -/
def docEntry (x : Options × Except PyErr PyDict) (k : String) :
    Option (Option PyObj) :=
  match x.2 with
  | .ok fc => some (dictGet fc k)
  | .error _ => none

/-- The bbox option used in the C10 counterexample. -/
def opts10 : Options := [("bbox", .bboxV [[.int 0, .int 1, .int 2, .int 3]])]

/-! ## Counterexamples and code-bug evaluations -/

/-- **C5 (counterexample).** A `primary_key = "code"` configuration and a
record whose `code` field holds 7 while its conventional primary-key value
is 1: the assembled Feature's `id` is 1, the primary key — the configured
field name's value 7 does not become the Feature id (no configured
callable or field name is consulted; `start_object`, line 96, always uses
`obj.pk`). -/
theorem configured_primary_key_is_ignored :
    dictGet [("primary_key", OptValue.strV "code")] "primary_key" =
      some (.strV "code") ∧
    getattr meta0 rCode "code" = .ok (.prim (.int 7)) ∧
    firstFeatureId
      (buildDocument env0 meta0 [rCode] [("primary_key", .strV "code")]) =
      some (.jval (.int 1)) ∧
    JValue.int 1 ≠ JValue.int 7 := by
  refine ⟨rfl, rfl, rfl, ?_⟩
  intro h
  injection h with h2
  exact absurd h2 (by decide)

/-- **C6 (counterexample).** Serializing with `crs = false` produces a
document whose `crs` key is present with a null value — not a document
with no `crs` key at all. -/
theorem crs_false_key_still_present :
    docEntry (buildDocument env0 meta0 [rA] [("crs", .boolV false)]) "crs" =
      some (some (.jval .null)) := rfl

/-- **C7 (code bug).** A plain list `properties` configuration makes
`end_object` call `.iteritems()` on the list (line 113), raising
`AttributeError` — the record is never emitted and the whole call aborts,
although the surrounding code's own comment (lines 111-112) says the list
should filter the properties. -/
theorem list_properties_config_raises :
    buildFeature env0 meta0 none none (some (.listV ["name"])) rA =
      .error (.attributeError "iteritems") := rfl

/-- **C10 (counterexample).** A completed call that was given a `bbox`
option: `bbox` is not among the seven keys the claim lists, yet it has
been removed from the options dictionary by `start_serialization`
(line 49), so "all other keys remain unchanged" fails. -/
theorem bbox_option_also_removed :
    isOk (serialize env0 meta0 [rA] opts10).res = true ∧
    dictGet opts10 "bbox" = some (.bboxV [[.int 0, .int 1, .int 2, .int 3]]) ∧
    dictGet (serialize env0 meta0 [rA] opts10).optionsAfter "bbox" = none :=
  ⟨rfl, rfl, rfl⟩

/-! ## Witnesses -/

/-- Witness for C1 at `records = [rA]`, `options = [("crs", false)]`. -/
theorem features_match_records_witness :
    ([rA] ≠ ([] : List Record)) ∧
    buildDocument env0 meta0 [rA] [("crs", OptValue.boolV false)] =
      ([("crs", OptValue.boolV false)], .ok fcA) ∧
    (∃ feats : List PyDict,
      dictGet fcA "features" = some (.list (feats.map PyObj.dict)) ∧
      feats.length = [rA].length ∧
      ∀ i (hi : i < [rA].length) (hf : i < feats.length),
        buildFeature env0 meta0
          (selected_fieldsOf [("crs", OptValue.boolV false)])
          (geometry_fieldOf [("crs", OptValue.boolV false)])
          (dictGet [("crs", OptValue.boolV false)] "properties")
          ([rA].get ⟨i, hi⟩) = .ok (feats.get ⟨i, hf⟩)) :=
  ⟨by simp, rfl,
    features_match_records env0 meta0 [rA] [("crs", OptValue.boolV false)]
      [("crs", OptValue.boolV false)] fcA (by simp) rfl⟩

/-- Witness for C2 at `rGeo` with `geometry_field = "geom"`. -/
theorem geometry_field_projects_witness :
    ("geom" ≠ "geojson") ∧ ("geom" ≠ "") ∧
    getattr meta0 rGeo "geom" = .ok (.geom gPoly) ∧
    buildFeature env0 meta0 none (some "geom") none rGeo = .ok ftGeo ∧
    (dictGet ftGeo "geometry" = some (.geos gPoly) ∧
     ∀ es, encodeEntries ftGeo = .ok es →
       dictGet es "geometry" = some gPoly.geojson) :=
  ⟨by decide, by decide, rfl, rfl,
    geometry_field_projects_to_geojson env0 meta0 none none rGeo "geom"
      gPoly ftGeo (by decide) (by decide) rfl rfl⟩

/-- Witness for C3 at `rBad`, whose `geojson` text does not parse. -/
theorem parse_error_aborts_witness :
    geometry_fieldOf [("geometry_field", OptValue.strV "geojson")] =
      some "geojson" ∧
    rBad ∈ [rBad] ∧
    getattr meta0 rBad "geojson" = .ok (.prim (.str "not json")) ∧
    env0.json_loads "not json" = .error "not json" ∧
    dictGet [("geometry_field", OptValue.strV "geojson")] "stream" = none ∧
    (isErr (serialize env0 meta0 [rBad]
        [("geometry_field", OptValue.strV "geojson")]).res = true ∧
     (serialize env0 meta0 [rBad]
        [("geometry_field", OptValue.strV "geojson")]).sinkAfter = "") :=
  ⟨rfl, by simp, rfl, rfl, rfl,
    parse_error_aborts_with_empty_sink env0 meta0 [rBad]
      [("geometry_field", OptValue.strV "geojson")] rBad "not json" "not json"
      rfl (by simp) rfl rfl rfl⟩

/-- Witness for C4 at `rPop` with `properties = {"pop": "population"}`. -/
theorem rename_mapping_witness :
    (([("pop", "population")].map Prod.snd).Nodup) ∧
    buildFeature env0 meta0 none none
      (some (.dictV [("pop", "population")])) rPop = .ok ftPop ∧
    (∃ cur props,
      collectCurrent env0 meta0 none none rPop = .ok cur ∧
      dictGet ftPop "properties" = some (.dict props) ∧
      props.map Prod.fst = [("pop", "population")].map Prod.snd ∧
      ∀ f p, (f, p) ∈ [("pop", "population")] →
        ∃ v, dictGet (currentProps cur) f = some v ∧
          dictGet props p = some v) :=
  ⟨by decide, rfl,
    rename_mapping_properties_exact env0 meta0 none none
      [("pop", "population")] rPop ftPop (by decide) rfl⟩

/-- Witness for the amended C5 at `rA`. -/
theorem feature_id_is_pk_witness :
    buildFeature env0 meta0 none none none rA = .ok ftA ∧
    dictGet ftA "id" = some (.jval rA.pkValue) :=
  ⟨rfl, feature_id_is_record_pk env0 meta0 none none none rA ftA rfl⟩

/-- Witness for the amended C6 at `[rA]` with `crs = false`. -/
theorem crs_false_null_witness :
    dictGet [("crs", OptValue.boolV false)] "crs" = some (.boolV false) ∧
    buildDocument env0 meta0 [rA] [("crs", OptValue.boolV false)] =
      ([("crs", OptValue.boolV false)], .ok fcA) ∧
    dictGet fcA "crs" = some (.jval .null) :=
  ⟨rfl, rfl,
    crs_false_yields_null_entry env0 meta0 [rA]
      [("crs", OptValue.boolV false)] [("crs", OptValue.boolV false)] fcA
      rfl rfl⟩

/-- Witness for C8 with bbox `[(0, 1, 2, 3)]`. -/
theorem bbox_entry_witness :
    dictGet [("crs", OptValue.boolV false),
        ("bbox", OptValue.bboxV [[.int 0, .int 1, .int 2, .int 3]])] "bbox" =
      some (.bboxV [[.int 0, .int 1, .int 2, .int 3]]) ∧
    buildDocument env0 meta0 [rA]
      [("crs", OptValue.boolV false),
       ("bbox", OptValue.bboxV [[.int 0, .int 1, .int 2, .int 3]])] =
      ([("crs", OptValue.boolV false)], .ok fc8) ∧
    dictGet fc8 "bbox" =
      some (.list ((([JValue.int 0, .int 1, .int 2, .int 3]).drop 1).map
        PyObj.jval)) :=
  ⟨rfl, rfl,
    bbox_entry_is_first_tuple_tail env0 meta0 [rA]
      [("crs", OptValue.boolV false),
       ("bbox", OptValue.bboxV [[.int 0, .int 1, .int 2, .int 3]])]
      [("crs", OptValue.boolV false)] fc8
      [JValue.int 0, .int 1, .int 2, .int 3] [] rfl rfl⟩

/-- Witness for C9: the same records and the same configuration values give
byte-identical output. -/
theorem same_config_same_output_witness :
    (∀ k, ¬ k = "stream" →
      dictGet [("crs", OptValue.boolV false)] k =
        dictGet [("crs", OptValue.boolV false)] k) ∧
    streamOf [("crs", OptValue.boolV false)] =
      streamOf [("crs", OptValue.boolV false)] ∧
    ((serialize env0 meta0 [rA] [("crs", OptValue.boolV false)]).res =
      (serialize env0 meta0 [rA] [("crs", OptValue.boolV false)]).res ∧
     (serialize env0 meta0 [rA] [("crs", OptValue.boolV false)]).sinkAfter =
      (serialize env0 meta0 [rA] [("crs", OptValue.boolV false)]).sinkAfter) :=
  ⟨fun _ _ => rfl, rfl,
    same_config_same_output env0 meta0 [rA] [("crs", OptValue.boolV false)]
      [("crs", OptValue.boolV false)] (fun _ _ => rfl) rfl⟩

/-- Witness for the amended C10 at `opts10`. -/
theorem completed_call_pops_witness :
    isOk (serialize env0 meta0 [rA] opts10).res = true ∧
    ((∀ k, k ∈ transientKeys ++ ["bbox"] →
       dictGet (serialize env0 meta0 [rA] opts10).optionsAfter k = none) ∧
     (∀ k, k ∉ transientKeys ++ ["bbox"] →
       dictGet (serialize env0 meta0 [rA] opts10).optionsAfter k =
         dictGet opts10 k)) :=
  ⟨rfl, completed_call_pops_transient_options env0 meta0 [rA] opts10 rfl⟩

end GeoJSONTiles
